import Mathlib

/-
Verification development for the PrayerPI path tracer.

The numeric model: f32 values are embedded as exact rationals extended
with the two infinities and NaN.  Rounding of in-range results is not
modelled (values stay exact rationals), but overflow is: an arithmetic
result whose magnitude reaches the round-to-nearest overflow threshold
of f32 saturates to the corresponding infinity, exactly as the f32
operations of the source do.  NaN propagation, the IEEE special cases
for infinities (inf - inf, 0 * inf, inf / inf, x / 0), the Rust
comparison semantics on floats, the Rust f32::max semantics and the
saturating f32-to-u8 cast are modelled faithfully.
-/

namespace PrayerPi

/-- Model of an f32 value: an exact rational, one of the two infinities,
or NaN. -/
inductive F where
  | num (q : ℚ)
  | pinf
  | ninf
  | nan
deriving DecidableEq

/-- The largest finite f32 value, 2 to the 128 minus 2 to the 104. -/
def f32Max : ℚ := 340282346638528859811704183484516925440

/-- The overflow threshold of round-to-nearest f32 arithmetic: an exact
result of magnitude at least 2 to the 128 minus 2 to the 103 rounds to
an infinity. -/
def ovThresh : ℚ := 340282356779733661637539395458142568448

theorem f32Max_eq : f32Max = 2 ^ 128 - 2 ^ 104 := by norm_num [f32Max]

theorem ovThresh_eq : ovThresh = 2 ^ 128 - 2 ^ 103 := by norm_num [ovThresh]

theorem f32Max_lt_ovThresh : f32Max < ovThresh := by norm_num [f32Max, ovThresh]

/-- Saturation of an exact arithmetic result to the f32 model: results
at or beyond the overflow threshold become infinities. -/
def ovfl (q : ℚ) : F :=
  if ovThresh ≤ q then F.pinf else if q ≤ -ovThresh then F.ninf else F.num q

/-- Addition on the f32 model: NaN propagates, opposite infinities give
NaN, finite sums saturate on overflow. -/
def fadd : F → F → F
  | F.num a, F.num b => ovfl (a + b)
  | F.num _, F.pinf => F.pinf
  | F.pinf, F.num _ => F.pinf
  | F.num _, F.ninf => F.ninf
  | F.ninf, F.num _ => F.ninf
  | F.pinf, F.pinf => F.pinf
  | F.ninf, F.ninf => F.ninf
  | _, _ => F.nan

/-- Subtraction on the f32 model: NaN propagates, same-signed infinities
give NaN, finite differences saturate on overflow. -/
def fsub : F → F → F
  | F.num a, F.num b => ovfl (a - b)
  | F.num _, F.pinf => F.ninf
  | F.num _, F.ninf => F.pinf
  | F.pinf, F.num _ => F.pinf
  | F.ninf, F.num _ => F.ninf
  | F.pinf, F.ninf => F.pinf
  | F.ninf, F.pinf => F.ninf
  | _, _ => F.nan

/-- Multiplication on the f32 model: NaN propagates, zero times an
infinity is NaN, finite products saturate on overflow. -/
def fmul : F → F → F
  | F.num a, F.num b => ovfl (a * b)
  | F.num a, F.pinf => if 0 < a then F.pinf else if a < 0 then F.ninf else F.nan
  | F.pinf, F.num a => if 0 < a then F.pinf else if a < 0 then F.ninf else F.nan
  | F.num a, F.ninf => if 0 < a then F.ninf else if a < 0 then F.pinf else F.nan
  | F.ninf, F.num a => if 0 < a then F.ninf else if a < 0 then F.pinf else F.nan
  | F.pinf, F.pinf => F.pinf
  | F.pinf, F.ninf => F.ninf
  | F.ninf, F.pinf => F.ninf
  | F.ninf, F.ninf => F.pinf
  | _, _ => F.nan

/-- Division on the f32 model: NaN propagates, 0/0 and inf/inf are NaN,
a nonzero finite value over zero is a signed infinity (the model has a
single zero, treated as +0), a finite value over an infinity is zero,
finite quotients saturate on overflow. -/
def fdiv : F → F → F
  | F.num a, F.num b =>
      if b = 0 then (if a = 0 then F.nan else if 0 < a then F.pinf else F.ninf)
      else ovfl (a / b)
  | F.num _, F.pinf => F.num 0
  | F.num _, F.ninf => F.num 0
  | F.pinf, F.num a => if 0 ≤ a then F.pinf else F.ninf
  | F.ninf, F.num a => if 0 ≤ a then F.ninf else F.pinf
  | _, _ => F.nan

/-- Negation on the f32 model (exact, never overflows). -/
def fneg : F → F
  | F.num a => F.num (-a)
  | F.pinf => F.ninf
  | F.ninf => F.pinf
  | F.nan => F.nan

/-- Model of Rust f32::max: if one operand is NaN the other is
returned, otherwise the order with ninf below every finite value and
pinf above. -/
def fmax : F → F → F
  | F.nan, b => b
  | a, F.nan => a
  | F.pinf, _ => F.pinf
  | _, F.pinf => F.pinf
  | F.ninf, b => b
  | a, F.ninf => a
  | F.num a, F.num b => F.num (max a b)

/-- Model of the Rust PartialOrd strict comparison on f32: any
comparison with NaN is false, the infinities bound every finite
value. -/
def flt : F → F → Bool
  | F.num a, F.num b => decide (a < b)
  | F.num _, F.pinf => true
  | F.ninf, F.num _ => true
  | F.ninf, F.pinf => true
  | _, _ => false

/-- Model of the Rust saturating cast expr as u8 from f32: NaN goes to
0, negative values and negative infinity to 0, positive infinity and
values at or above 256 saturate to 255, and a positive fractional value
is truncated toward zero. -/
def toU8 : F → Nat
  | F.nan => 0
  | F.pinf => 255
  | F.ninf => 0
  | F.num q => if q ≤ 0 then 0 else min 255 (Int.toNat ⌊q⌋)

/-- A value of the f32 model is finite when it is a rational (neither
NaN nor an infinity). -/
def F.isNum : F → Prop
  | F.num _ => True
  | _ => False

/-- A model value is representable in f32 range when it is NaN, an
infinity, or a rational of magnitude at most the largest finite f32;
rationals beyond that range are artifacts of the exact model and never
arise as values of the program. -/
def F.inRange : F → Prop
  | F.num q => q ≤ f32Max ∧ -f32Max ≤ q
  | _ => True

/-- Three-component vector, used at f32 model type for the core and at ℚ
for the mesh loader. -/
structure Vec3 (α : Type) where
  x : α
  y : α
  z : α
deriving DecidableEq

/-- Two-component vector (texture coordinates). -/
structure Vec2 (α : Type) where
  x : α
  y : α
deriving DecidableEq

/-- Componentwise vector addition. -/
def v3add (a b : Vec3 F) : Vec3 F := ⟨fadd a.x b.x, fadd a.y b.y, fadd a.z b.z⟩

/-- Componentwise vector subtraction. -/
def v3sub (a b : Vec3 F) : Vec3 F := ⟨fsub a.x b.x, fsub a.y b.y, fsub a.z b.z⟩

/-- Componentwise product (glm component_mul). -/
def v3mul (a b : Vec3 F) : Vec3 F := ⟨fmul a.x b.x, fmul a.y b.y, fmul a.z b.z⟩

/-- Vector times scalar. -/
def v3muls (a : Vec3 F) (s : F) : Vec3 F := ⟨fmul a.x s, fmul a.y s, fmul a.z s⟩

/-- Scalar times vector. -/
def v3smul (s : F) (a : Vec3 F) : Vec3 F := ⟨fmul s a.x, fmul s a.y, fmul s a.z⟩

/-- Vector divided by scalar. -/
def v3divs (a : Vec3 F) (s : F) : Vec3 F := ⟨fdiv a.x s, fdiv a.y s, fdiv a.z s⟩

/-- Componentwise negation. -/
def v3neg (a : Vec3 F) : Vec3 F := ⟨fneg a.x, fneg a.y, fneg a.z⟩

/-- The zero vector (glm zero). -/
def v3zero : Vec3 F := ⟨F.num 0, F.num 0, F.num 0⟩

/-- Dot product, summed left to right as glm does. -/
def dot3 (a b : Vec3 F) : F :=
  fadd (fadd (fmul a.x b.x) (fmul a.y b.y)) (fmul a.z b.z)

/-- All three components are finite. -/
def v3isNum (a : Vec3 F) : Prop := a.x.isNum ∧ a.y.isNum ∧ a.z.isNum

/-- All three components are in f32 range (not exact-model
artifacts). -/
def v3inRange (a : Vec3 F) : Prop := a.x.inRange ∧ a.y.inRange ∧ a.z.inRange

/-- Ray: origin plus direction, as in ray.rs (not under src; the spec
describes it as a plain origin and direction pair). -/
structure Ray where
  origin : Vec3 F
  direction : Vec3 F

/-- Hit data produced by an intersection query: point, normal, texture
coordinate and distance, per the spec data model. -/
structure Hit where
  point : Vec3 F
  normal : Vec3 F
  uv : Vec2 F
  distance : F

/-- Modelled from the spec: the Material of material.rs (not under src).
It carries color, metalness, roughness and emission, and the two
operations the spec gives it: bounce, producing one sampled scattered
ray together with its pdf, and brdf, producing the specular term and the
Fresnel-like weight ks.  Both are modelled as pure function fields (the
random sampling is abstracted into the function). -/
structure Material where
  color : Vec3 F
  metalness : F
  roughness : F
  emission : Vec3 F
  bounce : Ray → Hit → Ray × F
  brdf : Vec3 F → Vec3 F → Vec3 F → Vec3 F × Vec3 F

/-- Result of a scene intersection query: geometric hit data plus the
material of the hit object. -/
structure HitResult where
  hit : Hit
  material : Material

/-- Modelled from the spec: the Scene of geom.rs (not under src).  The
only operation the integrator uses is the nearest-hit query
trace(ray, t_min, t_max), modelled as an abstract function field. -/
structure Scene where
  trace : Ray → F → F → Option HitResult

/-- Abstracted f32 transcendental operations (sqrt for normalize, powf
for gamma correction); the claims never depend on their values. -/
structure FOps where
  sqrt : F → F
  powf : F → F → F

/-- The f32 value of std::f32::consts::PI, exactly. -/
def pi32 : ℚ := 13176795 / 4194304

/-- The lower bound 0.001 used by trace for the nearest-hit query. -/
def eps : F := F.num (1 / 1000)

/-- Upper bound of the nearest-hit query in trace. -/
def f32MaxF : F := F.num f32Max

/-- glm normalize: the vector divided by the square root of its dot
product with itself. -/
def v3normalize (ops : FOps) (v : Vec3 F) : Vec3 F :=
  v3divs v (ops.sqrt (dot3 v v))

/-- The sky gradient of the no-hit branch of trace in main.rs. -/
def skyColor (ops : FOps) (r : Ray) : Vec3 F :=
  let dir := v3normalize ops r.direction
  let t := fmul (F.num (1 / 2)) (fadd dir.y (F.num 1))
  let white : Vec3 F := ⟨F.num 1, F.num 1, F.num 1⟩
  let azure : Vec3 F := ⟨F.num (1 / 2), F.num (7 / 10), F.num 1⟩
  v3add (v3smul (fsub (F.num 1) t) white) (v3smul t azure)

/-- The hit branch of trace in main.rs, with the recursively traced
incident radiance passed in: reflectance plus emission, where
reflectance is (kd component_mul lambert + brdf) component_mul incident
times costheta over pdf. -/
def shadeHit (ops : FOps) (r : Ray) (result : HitResult) (incident : Vec3 F) : Vec3 F :=
  let material := result.material
  let n := result.hit.normal
  let bp := material.bounce r result.hit
  let lambert := v3divs material.color (F.num pi32)
  let costheta := fmax (dot3 n bp.1.direction) (F.num 0)
  let bk := material.brdf (v3neg r.direction) bp.1.direction n
  let kd := v3sub ⟨F.num 1, F.num 1, F.num 1⟩ (v3muls bk.2 (fsub (F.num 1) material.metalness))
  let reflectance :=
    v3divs (v3muls (v3mul (v3add (v3mul kd lambert) bk.1) incident) costheta) bp.2
  v3add reflectance material.emission

/-- The recursive integrator trace of main.rs: zero radiance at depth 0,
otherwise nearest-hit query over the interval from 0.001 to f32::MAX,
shading on a hit with the recursive call at depth - 1 along the sampled
bounce ray, and the sky gradient on a miss. -/
def trace (ops : FOps) (r : Ray) (s : Scene) : Nat → Vec3 F
  | 0 => v3zero
  | d + 1 =>
    match s.trace r eps f32MaxF with
    | some result =>
        shadeHit ops r result (trace ops (result.material.bounce r result.hit).1 s d)
    | none => skyColor ops r

theorem trace_zero (ops : FOps) (r : Ray) (s : Scene) : trace ops r s 0 = v3zero := rfl

theorem trace_succ (ops : FOps) (r : Ray) (s : Scene) (d : Nat) :
    trace ops r s (d + 1) =
      match s.trace r eps f32MaxF with
      | some result =>
          shadeHit ops r result (trace ops (result.material.bounce r result.hit).1 s d)
      | none => skyColor ops r := rfl

/-- Fuel-indexed variant of trace: it refuses to recurse deeper than the
given fuel.  Used to express that the recursion of trace is well-founded
on the depth counter and that its call stack is bounded by the initial
depth. -/
def traceFuel (ops : FOps) : Nat → Ray → Scene → Nat → Option (Vec3 F)
  | 0, _, _, _ => none
  | _ + 1, _, _, 0 => some v3zero
  | f + 1, r, s, d + 1 =>
    match s.trace r eps f32MaxF with
    | some result =>
        match traceFuel ops f (result.material.bounce r result.hit).1 s d with
        | none => none
        | some incident => some (shadeHit ops r result incident)
    | none => some (skyColor ops r)

instance (x : F) : Decidable (F.isNum x) :=
  match x with
  | F.num _ => isTrue trivial
  | F.pinf => isFalse (fun h => h)
  | F.ninf => isFalse (fun h => h)
  | F.nan => isFalse (fun h => h)

instance (x : F) : Decidable (F.inRange x) :=
  match x with
  | F.num q => inferInstanceAs (Decidable (q ≤ f32Max ∧ -f32Max ≤ q))
  | F.pinf => isTrue trivial
  | F.ninf => isTrue trivial
  | F.nan => isTrue trivial

instance (v : Vec3 F) : Decidable (v3isNum v) :=
  inferInstanceAs (Decidable (v.x.isNum ∧ v.y.isNum ∧ v.z.isNum))

instance (v : Vec3 F) : Decidable (v3inRange v) :=
  inferInstanceAs (Decidable (v.x.inRange ∧ v.y.inRange ∧ v.z.inRange))

/-- A finite model value is a rational. -/
theorem isNum_ex {x : F} (h : x.isNum) : ∃ q, x = F.num q := by
  cases x with
  | num q => exact ⟨q, rfl⟩
  | pinf => exact h.elim
  | ninf => exact h.elim
  | nan => exact h.elim

/-- The modelled f32 value of pi is not zero. -/
theorem pi32_ne : pi32 ≠ 0 := by norm_num [pi32]

/-- An exact zero never saturates. -/
theorem ovfl_zero : ovfl 0 = F.num 0 := by norm_num [ovfl, ovThresh]

/-- Adding the zero scalar on the left is the identity for every value
in f32 range (an in-range rational is strictly below the overflow
threshold, and the special values are absorbed). -/
theorem fadd_zero_left {e : F} (he : e.inRange) : fadd (F.num 0) e = e := by
  cases e with
  | num a =>
    obtain ⟨h1, h2⟩ := he
    have hov := f32Max_lt_ovThresh
    simp only [fadd, zero_add, ovfl]
    rw [if_neg (by linarith), if_neg (by linarith)]
  | pinf => rfl
  | ninf => rfl
  | nan => rfl

/-- Zero divided by a strictly positive pdf (finite or infinite) is
zero. -/
theorem fdiv_zero_pos {pdf : F} (hpdf : flt (F.num 0) pdf = true) :
    fdiv (F.num 0) pdf = F.num 0 := by
  cases pdf with
  | num p =>
    have hp : 0 < p := by simpa [flt] using hpdf
    simp [fdiv, hp.ne', ovfl_zero]
  | pinf => rfl
  | ninf => simp [flt] at hpdf
  | nan => simp [flt] at hpdf

/-- One channel of the reflectance term with zero incident radiance
vanishes into the emission, provided the weight channel is finite, the
pdf is strictly positive and the emission channel is in f32 range. -/
theorem reflectance_zero_comp (X e pdf : F) (c : ℚ) (hX : X.isNum)
    (hpdf : flt (F.num 0) pdf = true) (he : e.inRange) :
    fadd (fdiv (fmul (fmul X (F.num 0)) (F.num c)) pdf) e = e := by
  obtain ⟨x, rfl⟩ := isNum_ex hX
  have h1 : fmul (F.num x) (F.num 0) = F.num 0 := by simp [fmul, ovfl_zero]
  have h2 : fmul (F.num 0) (F.num c) = F.num 0 := by simp [fmul, ovfl_zero]
  rw [h1, h2, fdiv_zero_pos hpdf, fadd_zero_left he]

/-- The vector form of reflectance_zero_comp. -/
theorem reflectance_zero_vec (X e : Vec3 F) (pdf : F) (c : ℚ) (hX : v3isNum X)
    (hpdf : flt (F.num 0) pdf = true) (he : v3inRange e) :
    v3add (v3divs (v3muls (v3mul X v3zero) (F.num c)) pdf) e = e := by
  obtain ⟨X1, X2, X3⟩ := X
  obtain ⟨e1, e2, e3⟩ := e
  obtain ⟨hX1, hX2, hX3⟩ := hX
  obtain ⟨he1, he2, he3⟩ := he
  simp only [v3mul, v3muls, v3divs, v3add, v3zero, Vec3.mk.injEq]
  exact ⟨reflectance_zero_comp X1 e1 pdf c hX1 hpdf he1,
    reflectance_zero_comp X2 e2 pdf c hX2 hpdf he2,
    reflectance_zero_comp X3 e3 pdf c hX3 hpdf he3⟩

/-- Shading a hit with zero incident radiance yields exactly the
emission, provided the pdf is strictly positive, the combined
reflectance weight kd componentwise lambert plus brdf is finite in every
channel (no overflow to infinity), cos theta is finite, and the emission
channels are in f32 range. -/
theorem shadeHit_zero (ops : FOps) (r : Ray) (result : HitResult) (b : Ray) (pdf : F)
    (brdf ks : Vec3 F)
    (hb : result.material.bounce r result.hit = (b, pdf))
    (hbr : result.material.brdf (v3neg r.direction) b.direction result.hit.normal = (brdf, ks))
    (hpdf : flt (F.num 0) pdf = true)
    (hX : v3isNum (v3add
      (v3mul
        (v3sub ⟨F.num 1, F.num 1, F.num 1⟩
          (v3muls ks (fsub (F.num 1) result.material.metalness)))
        (v3divs result.material.color (F.num pi32)))
      brdf))
    (hcos : (fmax (dot3 result.hit.normal b.direction) (F.num 0)).isNum)
    (hem : v3inRange result.material.emission) :
    shadeHit ops r result v3zero = result.material.emission := by
  obtain ⟨c, hc⟩ := isNum_ex hcos
  simp only [shadeHit, hb, hbr]
  rw [hc]
  exact reflectance_zero_vec _ _ _ _ hX hpdf hem

/-- C1: on a hit at depth at least 1, trace returns
(kd componentwise (color over pi) + brdf) componentwise incident, times
cos theta, over pdf, plus emission, where incident is the recursive
trace of the sampled bounce ray at depth - 1, cos theta is the f32 max
of the dot of normal and bounce direction against 0, and
kd = (1,1,1) - ks times (1 - metalness). -/
theorem trace_hit_formula (ops : FOps) (r : Ray) (s : Scene) (d : Nat)
    (result : HitResult) (b : Ray) (pdf : F) (brdf ks : Vec3 F)
    (hd : 1 ≤ d)
    (hhit : s.trace r eps f32MaxF = some result)
    (hb : result.material.bounce r result.hit = (b, pdf))
    (hbr : result.material.brdf (v3neg r.direction) b.direction result.hit.normal = (brdf, ks)) :
    trace ops r s d =
      v3add
        (v3divs
          (v3muls
            (v3mul
              (v3add
                (v3mul
                  (v3sub ⟨F.num 1, F.num 1, F.num 1⟩
                    (v3muls ks (fsub (F.num 1) result.material.metalness)))
                  (v3divs result.material.color (F.num pi32)))
                brdf)
              (trace ops b s (d - 1)))
            (fmax (dot3 result.hit.normal b.direction) (F.num 0)))
          pdf)
        result.material.emission := by
  obtain ⟨d, rfl⟩ : ∃ k, d = k + 1 := ⟨d - 1, by omega⟩
  rw [trace_succ, hhit]
  simp [shadeHit, hb, hbr]

/-- C1 witness data: abstract transcendental operations. -/
def ops0 : FOps := ⟨fun _ => F.num 1, fun x _ => x⟩

/-- C1 witness data: a concrete primary ray. -/
def ray0 : Ray := ⟨v3zero, ⟨F.num 0, F.num 1, F.num 0⟩⟩

/-- C1 witness data: the sampled bounce ray of the witness material. -/
def bounce0 : Ray := ⟨v3zero, ⟨F.num 0, F.num 0, F.num 1⟩⟩

/-- C1 witness data: a concrete diffuse emissive material. -/
def mat0 : Material where
  color := ⟨F.num 1, F.num 0, F.num 0⟩
  metalness := F.num 0
  roughness := F.num 1
  emission := ⟨F.num 2, F.num 3, F.num 4⟩
  bounce := fun _ _ => (bounce0, F.num 1)
  brdf := fun _ _ _ => (⟨F.num 0, F.num 0, F.num 0⟩, ⟨F.num 0, F.num 0, F.num 0⟩)

/-- C1 witness data: a concrete hit record. -/
def hit0 : Hit := ⟨v3zero, ⟨F.num 0, F.num 0, F.num 1⟩, ⟨F.num 0, F.num 0⟩, F.num 1⟩

/-- C1 witness data: the hit result returned by the witness scene. -/
def result0 : HitResult := ⟨hit0, mat0⟩

/-- C1 witness data: a scene whose nearest-hit query always hits. -/
def sceneHit : Scene := ⟨fun _ _ _ => some result0⟩

/-- C1 witness data: a scene whose nearest-hit query never hits. -/
def sceneMiss : Scene := ⟨fun _ _ _ => none⟩

unseal Rat.add Rat.mul Rat.sub Rat.inv in
/-- Witness for C1 at a concrete scene: the reflectance term vanishes at
depth 1 and the emission (2,3,4) remains. -/
theorem trace_hit_formula_witness :
    1 ≤ 1 ∧ trace ops0 ray0 sceneHit 1 = ⟨F.num 2, F.num 3, F.num 4⟩ := by
  refine ⟨le_refl 1, ?_⟩
  rw [trace_hit_formula ops0 ray0 sceneHit 1 result0 bounce0 (F.num 1)
    ⟨F.num 0, F.num 0, F.num 0⟩ ⟨F.num 0, F.num 0, F.num 0⟩ (le_refl 1) rfl rfl rfl]
  decide

/-- C2 counterexample data: 10 to the 20, finite in f32. -/
def big : ℚ := 100000000000000000000

/-- C2 counterexample data: a finite ks whose first channel is 10 to
the 20. -/
def ks2 : Vec3 F := ⟨F.num big, F.num 0, F.num 0⟩

/-- C2 counterexample data: a zero (finite) specular term. -/
def brdf2 : Vec3 F := ⟨F.num 0, F.num 0, F.num 0⟩

/-- C2 counterexample data: a material with finite color, metalness
minus 10 to the 20, pdf 1 and emission (2,3,4); the weight
ks (1 - metalness) overflows f32 to infinity. -/
def mat2 : Material where
  color := ⟨F.num 0, F.num 0, F.num 0⟩
  metalness := F.num (-big)
  roughness := F.num 1
  emission := ⟨F.num 2, F.num 3, F.num 4⟩
  bounce := fun _ _ => (bounce0, F.num 1)
  brdf := fun _ _ _ => (brdf2, ks2)

/-- C2 counterexample data: the hit result of the overflow material. -/
def result2 : HitResult := ⟨hit0, mat2⟩

/-- C2 counterexample data: a scene that always hits the overflow
material. -/
def sceneHit2 : Scene := ⟨fun _ _ _ => some result2⟩

unseal Rat.add Rat.mul Rat.sub Rat.inv in
/-- C2 (counter-evidence): with every hypothesis of the original claim
satisfied (hit, pdf 1 > 0, finite brdf, ks, color, metalness), trace at
depth 1 does not return the emission: ks times (1 - metalness)
overflows to infinity, kd becomes minus infinity, and minus infinity
times the zero incident radiance is NaN, which propagates into the
returned first channel. -/
theorem trace_depth_one_overflow :
    Scene.trace sceneHit2 ray0 eps f32MaxF = some result2 ∧
    result2.material.bounce ray0 result2.hit = (bounce0, F.num 1) ∧
    result2.material.brdf (v3neg ray0.direction) bounce0.direction result2.hit.normal =
      (brdf2, ks2) ∧
    flt (F.num 0) (F.num 1) = true ∧
    v3isNum brdf2 ∧ v3isNum ks2 ∧ v3isNum result2.material.color ∧
    (result2.material.metalness).isNum ∧
    trace ops0 ray0 sceneHit2 1 ≠ result2.material.emission := by
  refine ⟨rfl, rfl, rfl, by decide, by decide, by decide, by decide, by decide, ?_⟩
  decide

/-- C2 as amended: at depth 1 a hit returns exactly the emission of the
hit material, given a strictly positive pdf, a combined reflectance
weight kd componentwise (color over pi) plus brdf that is finite in
every channel as computed in f32 (no overflow to infinity, in
particular in ks times (1 - metalness)), a finite cos theta, and
emission channels within f32 range: the recursive call at depth 0
contributes zero incident radiance, so the reflectance term
vanishes. -/
theorem trace_depth_one_emission (ops : FOps) (r : Ray) (s : Scene)
    (result : HitResult) (b : Ray) (pdf : F) (brdf ks : Vec3 F)
    (hhit : s.trace r eps f32MaxF = some result)
    (hb : result.material.bounce r result.hit = (b, pdf))
    (hbr : result.material.brdf (v3neg r.direction) b.direction result.hit.normal = (brdf, ks))
    (hpdf : flt (F.num 0) pdf = true)
    (hX : v3isNum (v3add
      (v3mul
        (v3sub ⟨F.num 1, F.num 1, F.num 1⟩
          (v3muls ks (fsub (F.num 1) result.material.metalness)))
        (v3divs result.material.color (F.num pi32)))
      brdf))
    (hcos : (fmax (dot3 result.hit.normal b.direction) (F.num 0)).isNum)
    (hem : v3inRange result.material.emission) :
    trace ops r s 1 = result.material.emission := by
  have h1 : trace ops r s 1 = trace ops r s (0 + 1) := rfl
  rw [h1, trace_succ, hhit]
  exact shadeHit_zero ops r result b pdf brdf ks hb hbr hpdf hX hcos hem

unseal Rat.add Rat.mul Rat.sub Rat.inv in
/-- Witness for the amended C2: the concrete emissive hit returns its
emission. -/
theorem trace_depth_one_emission_witness :
    flt (F.num 0) (F.num 1) = true ∧ trace ops0 ray0 sceneHit 1 = mat0.emission :=
  ⟨by decide,
    trace_depth_one_emission ops0 ray0 sceneHit result0 bounce0 (F.num 1)
      ⟨F.num 0, F.num 0, F.num 0⟩ ⟨F.num 0, F.num 0, F.num 0⟩ rfl rfl rfl (by decide)
      (by decide) (by decide) (by decide)⟩

/-- C3: on a miss at depth at least 1, trace returns the vertical
gradient (1 - t) (1,1,1) + t (0.5, 0.7, 1.0) with
t = 0.5 (normalize(direction).y + 1). -/
theorem trace_miss_sky (ops : FOps) (r : Ray) (s : Scene) (d : Nat)
    (hd : 1 ≤ d) (hdir : r.direction ≠ v3zero)
    (hmiss : s.trace r eps f32MaxF = none) :
    trace ops r s d =
      v3add
        (v3smul (fsub (F.num 1) (fmul (F.num (1 / 2)) (fadd (v3normalize ops r.direction).y (F.num 1))))
          ⟨F.num 1, F.num 1, F.num 1⟩)
        (v3smul (fmul (F.num (1 / 2)) (fadd (v3normalize ops r.direction).y (F.num 1)))
          ⟨F.num (1 / 2), F.num (7 / 10), F.num 1⟩) := by
  obtain ⟨d, rfl⟩ : ∃ k, d = k + 1 := ⟨d - 1, by omega⟩
  rw [trace_succ, hmiss]
  rfl

/-- Witness for C3: the miss scene returns the sky gradient at a
concrete upward ray. -/
theorem trace_miss_sky_witness :
    ray0.direction ≠ v3zero ∧
      trace ops0 ray0 sceneMiss 1 =
        v3add
          (v3smul (fsub (F.num 1) (fmul (F.num (1 / 2)) (fadd (v3normalize ops0 ray0.direction).y (F.num 1))))
            ⟨F.num 1, F.num 1, F.num 1⟩)
          (v3smul (fmul (F.num (1 / 2)) (fadd (v3normalize ops0 ray0.direction).y (F.num 1)))
            ⟨F.num (1 / 2), F.num (7 / 10), F.num 1⟩) :=
  ⟨by decide, trace_miss_sky ops0 ray0 sceneMiss 1 (le_refl 1) (by decide) rfl⟩

/-- C9: trace terminates on every input; the fuel-indexed variant agrees
with the total function whenever the fuel exceeds the depth counter, so
the recursion is well-founded on depth and its call stack is bounded by
the initial depth. -/
theorem trace_terminates (ops : FOps) (s : Scene) :
    ∀ (d f : Nat) (r : Ray), d < f → traceFuel ops f r s d = some (trace ops r s d) := by
  intro d
  induction d with
  | zero =>
    intro f r hf
    obtain ⟨f, rfl⟩ : ∃ k, f = k + 1 := ⟨f - 1, by omega⟩
    rfl
  | succ d ih =>
    intro f r hf
    obtain ⟨f, rfl⟩ : ∃ k, f = k + 1 := ⟨f - 1, by omega⟩
    have hf2 : d < f := by omega
    rw [trace_succ]
    cases hres : s.trace r eps f32MaxF with
    | some result =>
        have hrec := ih f ((result.material.bounce r result.hit).1) hf2
        simp [traceFuel, hres, hrec]
    | none => simp [traceFuel, hres]

/-- Witness for C9: with fuel 2 and depth 1 the fuel-indexed trace
agrees with trace on a concrete ray and scene. -/
theorem trace_terminates_witness :
    1 < 2 ∧ traceFuel ops0 2 ray0 sceneMiss 1 = some (trace ops0 ray0 sceneMiss 1) :=
  ⟨by decide, trace_terminates ops0 sceneMiss 1 2 ray0 (by decide)⟩

/-- The generic clamp of main.rs instantiated at the f32 model: both
comparisons use the Rust PartialOrd semantics, so a NaN input falls
through to the final branch and is returned unchanged. -/
def clamp (x mn mx : F) : F :=
  if flt x mn then mn else if flt mx x then mx else x

/-- One output channel of the sampling driver in main: the averaged
channel raised to 1 over gamma, clamped to the unit interval, scaled by
255.99 and cast to u8. -/
def chanByte (ops : FOps) (gamma : F) (c : F) : Nat :=
  toU8 (fmul (clamp (ops.powf c (fdiv (F.num 1) gamma)) (F.num 0) (F.num 1))
    (F.num (25599 / 100)))

/-- The averaged radiance of one pixel: the vector sum of the ss sample
values divided by ss, as the driver computes it.  The jittered camera
ray and the random stream are abstracted into the per-sample radiance
function. -/
def pixelColor (ss : Nat) (sample : Nat → Vec3 F) : Vec3 F :=
  v3divs (((List.range ss).map sample).foldl v3add v3zero) (F.num ss)

/-- The three output bytes of one pixel, in the x, y, z (that is R, G,
B) order of the vec the driver pushes. -/
def pixelBytes (ops : FOps) (gamma : F) (ss : Nat) (sample : Nat → Vec3 F) : List Nat :=
  let color := pixelColor ss sample
  [chanByte ops gamma color.x, chanByte ops gamma color.y, chanByte ops gamma color.z]

/-- The full output buffer of main: a flat map over the pixel index
i from 0 to w * h, with x = i mod w and y = i div w. -/
def renderBuffer (ops : FOps) (gamma : F) (w h ss : Nat)
    (sample : Nat → Nat → Nat → Vec3 F) : List Nat :=
  (List.range (w * h)).flatMap fun i => pixelBytes ops gamma ss (sample (i % w) (i / w))

/-- The arithmetic mean of a list of channel values, stated the way the
spec states it: the sum over the count. -/
def meanF (vals : List F) : F :=
  fdiv (vals.foldl fadd (F.num 0)) (F.num vals.length)

/-- Every pixel contributes exactly three bytes. -/
theorem pixelBytes_length (ops : FOps) (gamma : F) (ss : Nat) (sample : Nat → Vec3 F) :
    (pixelBytes ops gamma ss sample).length = 3 := rfl

/-- Length of a flat map of three-byte blocks over a range. -/
theorem flatMap_range_length (g : Nat → List Nat) (hg : ∀ j, (g j).length = 3) :
    ∀ n : Nat, ((List.range n).flatMap g).length = n * 3 := by
  intro n
  induction n with
  | zero => rfl
  | succ m ih =>
    rw [List.range_succ, List.flatMap_append, List.length_append, ih]
    simp [hg]
    omega

/-- Indexing into a flat map of three-byte blocks over a range: the byte
at offset 3 i + c is byte c of block i. -/
theorem flatMap_range_get (i : Nat) :
    ∀ (g : Nat → List Nat), (∀ j, (g j).length = 3) → ∀ (n c : Nat), i < n → c < 3 →
      ((List.range n).flatMap g)[3 * i + c]? = (g i)[c]? := by
  induction i with
  | zero =>
    intro g hg n c hn hc
    obtain ⟨m, rfl⟩ : ∃ m, n = m + 1 := ⟨n - 1, by omega⟩
    rw [List.range_succ_eq_map, List.flatMap_cons]
    have hidx : 3 * 0 + c = c := by omega
    rw [hidx, List.getElem?_append, hg 0, if_pos hc]
  | succ i ih =>
    intro g hg n c hn hc
    obtain ⟨m, rfl⟩ : ∃ m, n = m + 1 := ⟨n - 1, by omega⟩
    rw [List.range_succ_eq_map, List.flatMap_cons, List.flatMap_map]
    rw [List.getElem?_append_right (by rw [hg 0]; omega), hg 0]
    have h1 : 3 * (i + 1) + c - 3 = 3 * i + c := by omega
    rw [h1]
    exact ih (fun a => g (Nat.succ a)) (fun j => hg (Nat.succ j)) m c (by omega) hc

/-- A pixel index y * w + x from in-range coordinates is in range. -/
theorem pixel_index_lt {w h x y : Nat} (hx : x < w) (hy : y < h) : y * w + x < w * h := by
  calc y * w + x < y * w + w := by omega
    _ = (y + 1) * w := by ring
    _ ≤ h * w := Nat.mul_le_mul_right w hy
    _ = w * h := Nat.mul_comm h w

/-- Recovering the x coordinate from the flat pixel index. -/
theorem pixel_index_mod {w x : Nat} (y : Nat) (hx : x < w) : (y * w + x) % w = x := by
  rw [Nat.add_comm, Nat.add_mul_mod_self_right, Nat.mod_eq_of_lt hx]

/-- Recovering the y coordinate from the flat pixel index. -/
theorem pixel_index_div {w x : Nat} (y : Nat) (hx : x < w) : (y * w + x) / w = y := by
  have hw : 0 < w := by omega
  rw [Nat.add_comm, Nat.add_mul_div_right x y hw, Nat.div_eq_of_lt hx, Nat.zero_add]

/-- C6: the output buffer holds w * h * 3 bytes, row-major, with the
three channels of pixel (x, y) in R, G, B order starting at byte offset
3 (y * w + x), matching the top-to-bottom left-to-right iteration. -/
theorem renderBuffer_layout (ops : FOps) (gamma : F) (w h ss : Nat)
    (sample : Nat → Nat → Nat → Vec3 F) (x y : Nat) (hx : x < w) (hy : y < h) :
    (renderBuffer ops gamma w h ss sample).length = w * h * 3 ∧
    (renderBuffer ops gamma w h ss sample)[3 * (y * w + x)]? =
      some (chanByte ops gamma (pixelColor ss (sample x y)).x) ∧
    (renderBuffer ops gamma w h ss sample)[3 * (y * w + x) + 1]? =
      some (chanByte ops gamma (pixelColor ss (sample x y)).y) ∧
    (renderBuffer ops gamma w h ss sample)[3 * (y * w + x) + 2]? =
      some (chanByte ops gamma (pixelColor ss (sample x y)).z) := by
  have hg : ∀ j, (pixelBytes ops gamma ss (sample (j % w) (j / w))).length = 3 :=
    fun j => rfl
  have hi : y * w + x < w * h := pixel_index_lt hx hy
  have hmod := pixel_index_mod (w := w) y hx
  have hdiv := pixel_index_div (w := w) y hx
  refine ⟨flatMap_range_length _ hg (w * h), ?_, ?_, ?_⟩
  · have h0 : 3 * (y * w + x) = 3 * (y * w + x) + 0 := rfl
    rw [renderBuffer, h0, flatMap_range_get (y * w + x) _ hg (w * h) 0 hi (by omega),
      hmod, hdiv]
    rfl
  · rw [renderBuffer, flatMap_range_get (y * w + x) _ hg (w * h) 1 hi (by omega),
      hmod, hdiv]
    rfl
  · rw [renderBuffer, flatMap_range_get (y * w + x) _ hg (w * h) 2 hi (by omega),
      hmod, hdiv]
    rfl

/-- Witness for C6 at a one-pixel image with one sample. -/
theorem renderBuffer_layout_witness :
    0 < 1 ∧
    (renderBuffer ops0 (F.num (11 / 5)) 1 1 1 (fun _ _ _ => ⟨F.num 1, F.num 0, F.num 2⟩)).length =
      1 * 1 * 3 ∧
    (renderBuffer ops0 (F.num (11 / 5)) 1 1 1 (fun _ _ _ => ⟨F.num 1, F.num 0, F.num 2⟩))[3 * (0 * 1 + 0)]? =
      some (chanByte ops0 (F.num (11 / 5))
        (pixelColor 1 (fun _ => (⟨F.num 1, F.num 0, F.num 2⟩ : Vec3 F))).x) :=
  ⟨Nat.zero_lt_one,
    (renderBuffer_layout ops0 (F.num (11 / 5)) 1 1 1 (fun _ _ _ => ⟨F.num 1, F.num 0, F.num 2⟩)
      0 0 Nat.zero_lt_one Nat.zero_lt_one).1,
    (renderBuffer_layout ops0 (F.num (11 / 5)) 1 1 1 (fun _ _ _ => ⟨F.num 1, F.num 0, F.num 2⟩)
      0 0 Nat.zero_lt_one Nat.zero_lt_one).2.1⟩

/-- Folding the vector sum and then projecting a component is folding
the projected components. -/
theorem foldl_v3add_proj (p : Vec3 F → F) (hp : ∀ a b, p (v3add a b) = fadd (p a) (p b)) :
    ∀ (l : List (Vec3 F)) (v : Vec3 F), p (l.foldl v3add v) = (l.map p).foldl fadd (p v) := by
  intro l
  induction l with
  | nil => intro v; rfl
  | cons a l ih =>
    intro v
    rw [List.foldl_cons, List.map_cons, List.foldl_cons, ih, hp]

/-- The channels of the averaged pixel radiance are the channelwise
arithmetic means of the per-sample values. -/
theorem pixelColor_mean (ss : Nat) (f : Nat → Vec3 F) :
    (pixelColor ss f).x = meanF ((List.range ss).map fun k => (f k).x) ∧
    (pixelColor ss f).y = meanF ((List.range ss).map fun k => (f k).y) ∧
    (pixelColor ss f).z = meanF ((List.range ss).map fun k => (f k).z) := by
  refine ⟨?_, ?_, ?_⟩
  · show fdiv _ (F.num ss) = _
    rw [meanF, List.length_map, List.length_range]
    congr 1
    rw [foldl_v3add_proj (fun u => u.x) (fun a b => rfl), List.map_map]
    rfl
  · show fdiv _ (F.num ss) = _
    rw [meanF, List.length_map, List.length_range]
    congr 1
    rw [foldl_v3add_proj (fun u => u.y) (fun a b => rfl), List.map_map]
    rfl
  · show fdiv _ (F.num ss) = _
    rw [meanF, List.length_map, List.length_range]
    congr 1
    rw [foldl_v3add_proj (fun u => u.z) (fun a b => rfl), List.map_map]
    rfl

/-- C4: each output byte channel is the 8-bit truncating cast of
clamp(mean to the power 1 over gamma, 0, 1) times 255.99, where mean is
the per-channel arithmetic average of the ss per-sample radiance values:
the driver averages first, then applies the gamma exponent, then clamps,
then scales. -/
theorem renderBuffer_gamma_formula (ops : FOps) (gamma : F) (w h ss : Nat)
    (sample : Nat → Nat → Nat → Vec3 F) (x y : Nat) (hx : x < w) (hy : y < h) :
    (renderBuffer ops gamma w h ss sample)[3 * (y * w + x)]? =
      some (toU8 (fmul (clamp (ops.powf (meanF ((List.range ss).map fun k => (sample x y k).x))
        (fdiv (F.num 1) gamma)) (F.num 0) (F.num 1)) (F.num (25599 / 100)))) ∧
    (renderBuffer ops gamma w h ss sample)[3 * (y * w + x) + 1]? =
      some (toU8 (fmul (clamp (ops.powf (meanF ((List.range ss).map fun k => (sample x y k).y))
        (fdiv (F.num 1) gamma)) (F.num 0) (F.num 1)) (F.num (25599 / 100)))) ∧
    (renderBuffer ops gamma w h ss sample)[3 * (y * w + x) + 2]? =
      some (toU8 (fmul (clamp (ops.powf (meanF ((List.range ss).map fun k => (sample x y k).z))
        (fdiv (F.num 1) gamma)) (F.num 0) (F.num 1)) (F.num (25599 / 100)))) := by
  obtain ⟨hlen, h0, h1, h2⟩ := renderBuffer_layout ops gamma w h ss sample x y hx hy
  obtain ⟨hcx, hcy, hcz⟩ := pixelColor_mean ss (sample x y)
  refine ⟨?_, ?_, ?_⟩
  · rw [h0]; rw [chanByte, hcx]
  · rw [h1]; rw [chanByte, hcy]
  · rw [h2]; rw [chanByte, hcz]

/-- Witness for C4 at a one-pixel, one-sample image: the channel value
1/4 averages to itself, passes gamma (identity in the witness
operations), is clamped to 1/4, scaled to 63.9975 and truncated to
byte 63. -/
theorem renderBuffer_gamma_formula_witness :
    0 < 1 ∧
    (renderBuffer ops0 (F.num (11 / 5)) 1 1 1 (fun _ _ _ => ⟨F.num (1 / 4), F.num 0, F.num 0⟩))[3 * (0 * 1 + 0)]? =
      some (toU8 (fmul (clamp (ops0.powf (meanF ((List.range 1).map fun k =>
        ((fun _ _ _ => (⟨F.num (1 / 4), F.num 0, F.num 0⟩ : Vec3 F)) 0 0 k).x))
        (fdiv (F.num 1) (F.num (11 / 5)))) (F.num 0) (F.num 1)) (F.num (25599 / 100)))) :=
  ⟨Nat.zero_lt_one,
    (renderBuffer_gamma_formula ops0 (F.num (11 / 5)) 1 1 1
      (fun _ _ _ => ⟨F.num (1 / 4), F.num 0, F.num 0⟩) 0 0 Nat.zero_lt_one Nat.zero_lt_one).1⟩

/-- C10: clamp returns a NaN input unchanged because both PartialOrd
comparisons are false on NaN, the saturating u8 cast of NaN times 255.99
is the byte 0, and that is what a NaN radiance channel receives in the
output: its channel byte is 0. -/
theorem clamp_nan_byte (ops : FOps) (gamma : F)
    (hpow : ops.powf F.nan (fdiv (F.num 1) gamma) = F.nan) :
    clamp F.nan (F.num 0) (F.num 1) = F.nan ∧
    toU8 (fmul F.nan (F.num (25599 / 100))) = 0 ∧
    chanByte ops gamma F.nan = 0 := by
  refine ⟨rfl, rfl, ?_⟩
  rw [chanByte, hpow]
  rfl

/-- Witness for C10 with identity-like power operations and gamma 2.2. -/
theorem clamp_nan_byte_witness :
    ops0.powf F.nan (fdiv (F.num 1) (F.num (11 / 5))) = F.nan ∧
    (clamp F.nan (F.num 0) (F.num 1) = F.nan ∧
      toU8 (fmul F.nan (F.num (25599 / 100))) = 0 ∧
      chanByte ops0 (F.num (11 / 5)) F.nan = 0) :=
  ⟨rfl, clamp_nan_byte ops0 (F.num (11 / 5)) rfl⟩

/-
Model of the mesh loader obj.rs.  Numeric values are exact rationals
(f32 rounding is not modelled; no claim depends on it).  Tokens and
lines are lists of characters.  A Rust panic (expect, slice indexing out
of bounds) is modelled as an Except.error; a skipped record leaves the
load state unchanged.
-/

/-- Numeric value of a decimal digit character. -/
def digitVal (c : Char) : Nat := c.toNat - 48

/-- Value of a nonempty all-digit character list, or none. -/
def digitsToNat (cs : List Char) : Option Nat :=
  match cs with
  | [] => none
  | _ =>
    if cs.all Char.isDigit then
      some (cs.foldl (fun a c => 10 * a + digitVal c) 0)
    else none

/-- Model of Rust str::parse::<isize>: an optional sign followed by
digits (overflow is not modelled). -/
def parseIsize (s : List Char) : Option Int :=
  match s with
  | '-' :: rest => (digitsToNat rest).map (fun n => -(n : Int))
  | '+' :: rest => (digitsToNat rest).map (fun n => (n : Int))
  | _ => (digitsToNat s).map (fun n => (n : Int))

/-- Value of a fractional digit string, in [0, 1). -/
def fracVal (cs : List Char) : ℚ :=
  cs.foldr (fun c acc => ((digitVal c : ℚ) + acc) / 10) 0

/-- Model of Rust str::parse::<f32> on the decimal subset: an optional
sign, a nonempty integer part, an optional fraction after a dot.
Exponent forms, leading-dot forms, the inf and nan literals and rounding
to the nearest f32 are not modelled; no claim depends on them. -/
def parseFloat (s : List Char) : Option ℚ :=
  let core : List Char → Option ℚ := fun cs =>
    match digitsToNat (cs.takeWhile Char.isDigit) with
    | none => none
    | some n =>
      match cs.dropWhile Char.isDigit with
      | [] => some (n : ℚ)
      | '.' :: frac => if frac.all Char.isDigit then some ((n : ℚ) + fracVal frac) else none
      | _ => none
  match s with
  | '-' :: rest => (core rest).map (fun q => -q)
  | '+' :: rest => core rest
  | _ => core s

/-- Helper of splitWs carrying the reversed current word. -/
def splitWsAux : List Char → List Char → List (List Char)
  | cur, [] => if cur = [] then [] else [cur.reverse]
  | cur, c :: rest =>
    if c.isWhitespace then
      if cur = [] then splitWsAux [] rest else cur.reverse :: splitWsAux [] rest
    else splitWsAux (c :: cur) rest

/-- Model of Rust str::split_whitespace: split at whitespace runs,
dropping empty words. -/
def splitWs (s : List Char) : List (List Char) := splitWsAux [] s

/-- Model of Rust str::split(sep): split at every separator occurrence,
keeping empty pieces (the split of an empty string is one empty piece). -/
def splitChar (sep : Char) : List Char → List (List Char)
  | [] => [[]]
  | c :: rest =>
    match splitChar sep rest with
    | [] => [[]]
    | g :: gs => if c = sep then [] :: g :: gs else (c :: g) :: gs

/-- The index resolution of obj.rs: for i < 0 the code computes
vec.len() as isize - i, which equals len + abs(i), and indexes there;
for i = 0 the usize subtraction i - 1 underflows.  Both Rust indexing
panics are modelled as none; i >= 1 resolves 1-based. -/
def index_wrap {α : Type} (i : Int) (vec : List α) : Option α :=
  if i < 0 then vec[((vec.length : Int) - i).toNat]?
  else if i = 0 then none
  else vec[i.toNat - 1]?

/-- Modelled from the spec: the Vertex record of geom.rs (not under
src): position, texture coordinate, normal. -/
structure Vertex where
  pos : Vec3 ℚ
  uv : Vec2 ℚ
  normal : Vec3 ℚ
deriving DecidableEq

/-- Modelled from the spec: the Triangle of geom.rs (not under src),
three vertices in construction order. -/
structure Triangle where
  v1 : Vertex
  v2 : Vertex
  v3 : Vertex
deriving DecidableEq

/-- Componentwise subtraction of rational vectors. -/
def q3sub (a b : Vec3 ℚ) : Vec3 ℚ := ⟨a.x - b.x, a.y - b.y, a.z - b.z⟩

/-- Cross product of rational vectors, glm component order. -/
def q3cross (a b : Vec3 ℚ) : Vec3 ℚ :=
  ⟨a.y * b.z - a.z * b.y, a.z * b.x - a.x * b.z, a.x * b.y - a.y * b.x⟩

/-- Dot product of rational vectors. -/
def q3dot (a b : Vec3 ℚ) : ℚ := a.x * b.x + a.y * b.y + a.z * b.z

/-- Rational vector divided by a scalar. -/
def q3divs (a : Vec3 ℚ) (s : ℚ) : Vec3 ℚ := ⟨a.x / s, a.y / s, a.z / s⟩

/-- The flat normal of obj.rs: normalize((p2 - p1) cross (p3 - p1)),
with the square root abstracted as a function parameter sq. -/
def triangle_normal (sq : ℚ → ℚ) (p1 p2 p3 : Vec3 ℚ) : Vec3 ℚ :=
  let e1 := q3sub p2 p1
  let e2 := q3sub p3 p1
  let c := q3cross e1 e2
  q3divs c (sq (q3dot c c))

/-- The panic message of the expect on a missing or unparsable position
index. -/
def posRequired : String := "Position required for triangle definition"

/-- The panic raised by Rust slice indexing out of bounds. -/
def oobMsg : String := "index out of bounds"

/-- parse_vec3 of obj.rs: filter-map the tokens through the float
parser and take the first three parsable values. -/
def parse_vec3 (toks : List (List Char)) : Option (Vec3 ℚ) :=
  match toks.filterMap parseFloat with
  | x :: y :: z :: _ => some ⟨x, y, z⟩
  | _ => none

/-- parse_uv of obj.rs: filter-map the tokens through the float parser
and take the first two parsable values. -/
def parse_uv (toks : List (List Char)) : Option (Vec2 ℚ) :=
  match toks.filterMap parseFloat with
  | x :: y :: _ => some ⟨x, y⟩
  | _ => none

/-- Resolution of the optional texture-coordinate index of one face
vertex: missing or unparsable becomes the zero vector, a parsed index is
resolved through index_wrap (whose panic is an error). -/
def resolveCoord (coords : List (Vec2 ℚ)) (t : Option Int) : Except String (Vec2 ℚ) :=
  match t with
  | none => .ok ⟨0, 0⟩
  | some j =>
    match index_wrap j coords with
    | none => .error oobMsg
    | some cv => .ok cv

/-- Resolution of the optional normal index of one face vertex: missing
or unparsable stays absent, a parsed index is resolved through
index_wrap (whose panic is an error). -/
def resolveNorm (norms : List (Vec3 ℚ)) (t : Option Int) : Except String (Option (Vec3 ℚ)) :=
  match t with
  | none => .ok none
  | some k =>
    match index_wrap k norms with
    | none => .error oobMsg
    | some nv => .ok (some nv)

/-- The per-token closure of parse_triangle in obj.rs: split the token
at slashes, require a parsable position index (expect panic otherwise,
modelled as the error), then resolve the optional texture coordinate and
normal indices in that order. -/
def parseFaceVertex (verts : List (Vec3 ℚ)) (coords : List (Vec2 ℚ)) (norms : List (Vec3 ℚ))
    (s : List Char) : Except String (Vec3 ℚ × Vec2 ℚ × Option (Vec3 ℚ)) :=
  let cmps := splitChar '/' s
  match (cmps.head?).bind parseIsize with
  | none => .error posRequired
  | some i =>
    match index_wrap i verts with
    | none => .error oobMsg
    | some pos =>
      match resolveCoord coords ((cmps[1]?).bind parseIsize) with
      | .error e => .error e
      | .ok cv =>
        match resolveNorm norms ((cmps[2]?).bind parseIsize) with
        | .error e => .error e
        | .ok nv => .ok (pos, cv, nv)

/-- The make_vertex closure of parse_triangle: an absent normal falls
back to the captured flat normal. -/
def make_vertex (norm : Vec3 ℚ) (r : Vec3 ℚ × Vec2 ℚ × Option (Vec3 ℚ)) : Vertex :=
  ⟨r.1, r.2.1, r.2.2.getD norm⟩

/-- parse_triangle of obj.rs: lazily process up to the first three face
vertex tokens (extra tokens are ignored); fewer than three tokens yield
no triangle after the present ones are still processed, matching the
iterator evaluation order of the source. -/
def parse_triangle (sq : ℚ → ℚ) (verts : List (Vec3 ℚ)) (coords : List (Vec2 ℚ))
    (norms : List (Vec3 ℚ)) (toks : List (List Char)) : Except String (Option Triangle) :=
  match toks with
  | [] => .ok none
  | [t1] =>
    match parseFaceVertex verts coords norms t1 with
    | .error e => .error e
    | .ok _ => .ok none
  | [t1, t2] =>
    match parseFaceVertex verts coords norms t1 with
    | .error e => .error e
    | .ok _ =>
      match parseFaceVertex verts coords norms t2 with
      | .error e => .error e
      | .ok _ => .ok none
  | t1 :: t2 :: t3 :: _ =>
    match parseFaceVertex verts coords norms t1 with
    | .error e => .error e
    | .ok r1 =>
      match parseFaceVertex verts coords norms t2 with
      | .error e => .error e
      | .ok r2 =>
        match parseFaceVertex verts coords norms t3 with
        | .error e => .error e
        | .ok r3 =>
          .ok (some
            ⟨make_vertex (triangle_normal sq r1.1 r2.1 r3.1) r1,
             make_vertex (triangle_normal sq r1.1 r2.1 r3.1) r2,
             make_vertex (triangle_normal sq r1.1 r2.1 r3.1) r3⟩)

/-- The accumulated state of load: vertex positions, texture
coordinates, normals and finished triangles. -/
structure LoadState where
  verts : List (Vec3 ℚ)
  coords : List (Vec2 ℚ)
  norms : List (Vec3 ℚ)
  tris : List Triangle
deriving DecidableEq

/-- The loop body of load for one tokenized line: dispatch on the
leading keyword, push on success, skip quietly on a failed record
parse, propagate a panic. -/
def loadLine (sq : ℚ → ℚ) (st : LoadState) (toks : List (List Char)) :
    Except String LoadState :=
  match toks with
  | [] => .ok st
  | t :: rest =>
    if t = ['v'] then
      .ok (match parse_vec3 rest with
        | some p => { st with verts := st.verts ++ [p] }
        | none => st)
    else if t = ['v', 't'] then
      .ok (match parse_uv rest with
        | some c => { st with coords := st.coords ++ [c] }
        | none => st)
    else if t = ['v', 'n'] then
      .ok (match parse_vec3 rest with
        | some nv => { st with norms := st.norms ++ [nv] }
        | none => st)
    else if t = ['f'] then
      match parse_triangle sq st.verts st.coords st.norms rest with
      | .error e => .error e
      | .ok none => .ok st
      | .ok (some tr) => .ok { st with tris := st.tris ++ [tr] }
    else .ok st

/-- The line loop of load: comment lines starting with a hash are
filtered out, every other line is whitespace-tokenized and processed. -/
def loadAux (sq : ℚ → ℚ) : LoadState → List (List Char) → Except String LoadState
  | st, [] => .ok st
  | st, line :: rest =>
    if line.head? = some '#' then loadAux sq st rest
    else
      match loadLine sq st (splitWs line) with
      | .error e => .error e
      | .ok st2 => loadAux sq st2 rest

/-- load of obj.rs over a list of raw lines: run the loop from the
empty state and return the collected triangles. -/
def load (sq : ℚ → ℚ) (lines : List (List Char)) : Except String (List Triangle) :=
  (loadAux sq ⟨[], [], [], []⟩ lines).map (fun st => st.tris)

deriving instance DecidableEq for Except

/-- C5 (counter-evidence): the negative branch of index_wrap computes
len + abs(i) and always indexes out of bounds, panicking, while the
element one position back from the end of [1, 2, 3] (code index 2 in
0-based terms) does exist and is 3.  The claimed relative indexing never
resolves. -/
theorem index_wrap_negative_oob :
    index_wrap (-1 : Int) [(1 : ℚ), 2, 3] = none ∧ [(1 : ℚ), 2, 3][2]? = some 3 := by
  decide

/-- A successful index_wrap lookup returns an element of the list. -/
theorem index_wrap_mem {α : Type} {i : Int} {vec : List α} {a : α}
    (h : index_wrap i vec = some a) : a ∈ vec := by
  unfold index_wrap at h
  split at h
  · exact List.getElem?_mem h
  · split at h
    · simp at h
    · exact List.getElem?_mem h

/-- The position of a successfully parsed face vertex comes from the
accumulated vertex list. -/
theorem parseFaceVertex_pos_mem {verts : List (Vec3 ℚ)} {coords : List (Vec2 ℚ)}
    {norms : List (Vec3 ℚ)} {t : List Char} {r : Vec3 ℚ × Vec2 ℚ × Option (Vec3 ℚ)}
    (h : parseFaceVertex verts coords norms t = .ok r) : r.1 ∈ verts := by
  simp only [parseFaceVertex] at h
  split at h
  · simp at h
  · rename_i i hi
    split at h
    · simp at h
    · rename_i pos hpos
      split at h
      · simp at h
      · rename_i cv hcv
        split at h
        · simp at h
        · rename_i nv hnv
          simp only [Except.ok.injEq] at h
          subst h
          exact index_wrap_mem hpos

/-- All three vertex positions of a parsed triangle come from the
accumulated vertex list. -/
theorem parse_triangle_mem {sq : ℚ → ℚ} {verts : List (Vec3 ℚ)} {coords : List (Vec2 ℚ)}
    {norms : List (Vec3 ℚ)} {toks : List (List Char)} {tr : Triangle}
    (h : parse_triangle sq verts coords norms toks = .ok (some tr)) :
    tr.v1.pos ∈ verts ∧ tr.v2.pos ∈ verts ∧ tr.v3.pos ∈ verts := by
  rcases toks with _ | ⟨t1, _ | ⟨t2, _ | ⟨t3, rest⟩⟩⟩
  · simp [parse_triangle] at h
  · rcases h1 : parseFaceVertex verts coords norms t1 with e | r1 <;>
      simp [parse_triangle, h1] at h
  · rcases h1 : parseFaceVertex verts coords norms t1 with e | r1 <;>
      rcases h2 : parseFaceVertex verts coords norms t2 with e2 | r2 <;>
      simp [parse_triangle, h1, h2] at h
  · rcases h1 : parseFaceVertex verts coords norms t1 with e | r1
    · simp [parse_triangle, h1] at h
    rcases h2 : parseFaceVertex verts coords norms t2 with e2 | r2
    · simp [parse_triangle, h1, h2] at h
    rcases h3 : parseFaceVertex verts coords norms t3 with e3 | r3
    · simp [parse_triangle, h1, h2, h3] at h
    simp only [parse_triangle, h1, h2, h3, Except.ok.injEq, Option.some.injEq] at h
    subst h
    exact ⟨parseFaceVertex_pos_mem h1, parseFaceVertex_pos_mem h2, parseFaceVertex_pos_mem h3⟩

/-- C7 counterexample data: a v record with an unparsable token among
four tokens, two good v records, and a face over all three. -/
def lines7 : List (List Char) :=
  [("v 1.0 abc 2.0 3.0").data, ("v 0.0 0.0 0.0").data, ("v 0.0 0.0 1.0").data,
   ("f 1 2 3").data]

/-- C7 counterexample data: the triangle the loader actually produces,
incorporating position (1, 2, 3) salvaged from the malformed v record. -/
def tri7 : Triangle :=
  ⟨⟨⟨1, 2, 3⟩, ⟨0, 0⟩, ⟨-2 / 5, 1 / 5, 0⟩⟩,
   ⟨⟨0, 0, 0⟩, ⟨0, 0⟩, ⟨-2 / 5, 1 / 5, 0⟩⟩,
   ⟨⟨0, 0, 1⟩, ⟨0, 0⟩, ⟨-2 / 5, 1 / 5, 0⟩⟩⟩

unseal Rat.add Rat.mul Rat.sub Rat.inv in
/-- C7 (counter-evidence): the record v 1.0 abc 2.0 3.0 contains the
unparsable numeric token abc, yet load neither skips the record nor
fails: it accepts the vertex (1, 2, 3) built from the remaining parsable
tokens, and that vertex ends up in the returned triangle. -/
theorem load_salvages_malformed_record :
    load (fun q => q) lines7 = .ok [tri7] ∧ tri7.v1.pos = ⟨1, 2, 3⟩ := by
  decide

/-- C7 as amended: among the first three vertex tokens of a face
record, one whose position index is missing or unparsable fails the
whole load with the descriptive expect message; face tokens beyond the
third are never evaluated; a v, vt or vn record with fewer than the
required number of parsable tokens is skipped leaving the state
unchanged; and every triangle the parser produces takes all three
vertex positions from the accumulated vertex list, so no triangle ever
lacks concrete position data. -/
theorem load_malformed_amended (sq : ℚ → ℚ) (st : LoadState)
    (vtoks uvtoks : List (List Char)) (t1 t2 t3 ftok : List Char)
    (frest extra : List (List Char)) (verts : List (Vec3 ℚ)) (coords : List (Vec2 ℚ))
    (norms : List (Vec3 ℚ)) (toks : List (List Char)) (tr : Triangle)
    (r1 r2 : Vec3 ℚ × Vec2 ℚ × Option (Vec3 ℚ))
    (hv : parse_vec3 vtoks = none)
    (hvt : parse_uv uvtoks = none)
    (hf : ((splitChar '/' ftok).head?).bind parseIsize = none)
    (h1 : parseFaceVertex st.verts st.coords st.norms t1 = .ok r1)
    (h2 : parseFaceVertex st.verts st.coords st.norms t2 = .ok r2)
    (ht : parse_triangle sq verts coords norms toks = .ok (some tr)) :
    loadLine sq st (['v'] :: vtoks) = .ok st ∧
    loadLine sq st (['v', 't'] :: uvtoks) = .ok st ∧
    loadLine sq st (['v', 'n'] :: vtoks) = .ok st ∧
    loadLine sq st (['f'] :: ftok :: frest) = .error posRequired ∧
    loadLine sq st (['f'] :: t1 :: ftok :: frest) = .error posRequired ∧
    loadLine sq st (['f'] :: t1 :: t2 :: ftok :: frest) = .error posRequired ∧
    parse_triangle sq st.verts st.coords st.norms (t1 :: t2 :: t3 :: extra) =
      parse_triangle sq st.verts st.coords st.norms [t1, t2, t3] ∧
    (tr.v1.pos ∈ verts ∧ tr.v2.pos ∈ verts ∧ tr.v3.pos ∈ verts) := by
  have hpf : parseFaceVertex st.verts st.coords st.norms ftok = .error posRequired := by
    simp only [parseFaceVertex]
    rw [hf]
  refine ⟨?_, ?_, ?_, ?_, ?_, ?_, rfl, parse_triangle_mem ht⟩
  · simp [loadLine, hv]
  · simp [loadLine, hvt]
  · simp [loadLine, hv]
  · have hpt : parse_triangle sq st.verts st.coords st.norms (ftok :: frest) =
        .error posRequired := by
      rcases frest with _ | ⟨a, _ | ⟨b, rest2⟩⟩
      · simp [parse_triangle, hpf]
      · simp [parse_triangle, hpf]
      · simp [parse_triangle, hpf]
    simp [loadLine, hpt]
  · have hpt : parse_triangle sq st.verts st.coords st.norms (t1 :: ftok :: frest) =
        .error posRequired := by
      rcases frest with _ | ⟨a, rest2⟩
      · simp [parse_triangle, h1, hpf]
      · simp [parse_triangle, h1, hpf]
    simp [loadLine, hpt]
  · have hpt : parse_triangle sq st.verts st.coords st.norms (t1 :: t2 :: ftok :: frest) =
        .error posRequired := by
      simp [parse_triangle, h1, h2, hpf]
    simp [loadLine, hpt]

/-- Witness state for the amended C7: one vertex accumulated. -/
def st1 : LoadState := ⟨[⟨0, 0, 0⟩], [], [], []⟩

/-- Witness vertex for the amended C7: degenerate face over one vertex,
flat normal 0 because the cross product vanishes. -/
def vert0 : Vertex := ⟨⟨0, 0, 0⟩, ⟨0, 0⟩, ⟨0, 0, 0⟩⟩

/-- Witness triangle for the amended C7. -/
def tri0 : Triangle := ⟨vert0, vert0, vert0⟩

unseal Rat.add Rat.mul Rat.sub Rat.inv in
/-- Witness for the amended C7 at concrete malformed records: skipped
v, vt and vn records, position panics in each of the three face token
slots, an ignored fourth face token, and the produced degenerate
triangle drawing all positions from the vertex list. -/
theorem load_malformed_amended_witness :
    parse_vec3 [("x").data] = none ∧
    (loadLine (fun q => q) st1 (['v'] :: [("x").data]) = .ok st1 ∧
     loadLine (fun q => q) st1 (['v', 't'] :: [("x").data]) = .ok st1 ∧
     loadLine (fun q => q) st1 (['v', 'n'] :: [("x").data]) = .ok st1 ∧
     loadLine (fun q => q) st1 (['f'] :: ("a").data :: []) = .error posRequired ∧
     loadLine (fun q => q) st1 (['f'] :: ("1").data :: ("a").data :: []) =
       .error posRequired ∧
     loadLine (fun q => q) st1 (['f'] :: ("1").data :: ("1").data :: ("a").data :: []) =
       .error posRequired ∧
     parse_triangle (fun q => q) st1.verts st1.coords st1.norms
       (("1").data :: ("1").data :: ("1").data :: [("zzz").data]) =
       parse_triangle (fun q => q) st1.verts st1.coords st1.norms
         [("1").data, ("1").data, ("1").data] ∧
     (tri0.v1.pos ∈ [(⟨0, 0, 0⟩ : Vec3 ℚ)] ∧ tri0.v2.pos ∈ [(⟨0, 0, 0⟩ : Vec3 ℚ)] ∧
      tri0.v3.pos ∈ [(⟨0, 0, 0⟩ : Vec3 ℚ)])) :=
  ⟨by decide,
    load_malformed_amended (fun q => q) st1 [("x").data] [("x").data] ("1").data ("1").data
      ("1").data ("a").data [] [("zzz").data] [⟨0, 0, 0⟩] [] []
      [("1").data, ("1").data, ("1").data] tri0
      (⟨0, 0, 0⟩, ⟨0, 0⟩, none) (⟨0, 0, 0⟩, ⟨0, 0⟩, none)
      (by decide) (by decide) (by decide) (by decide) (by decide) (by decide)⟩

/-- A face vertex whose texture-coordinate index component is missing or
unparsable parses to the zero texture coordinate. -/
theorem parseFaceVertex_no_uv {verts : List (Vec3 ℚ)} {coords : List (Vec2 ℚ)}
    {norms : List (Vec3 ℚ)} {t : List Char} {r : Vec3 ℚ × Vec2 ℚ × Option (Vec3 ℚ)}
    (h : parseFaceVertex verts coords norms t = .ok r)
    (hn : (((splitChar '/' t))[1]?).bind parseIsize = none) : r.2.1 = ⟨0, 0⟩ := by
  simp only [parseFaceVertex] at h
  rw [hn] at h
  simp only [resolveCoord] at h
  split at h
  · simp at h
  · split at h
    · simp at h
    · split at h
      · simp at h
      · simp only [Except.ok.injEq] at h
        subst h
        rfl

/-- A face vertex whose normal index component is missing or unparsable
parses with no per-vertex normal. -/
theorem parseFaceVertex_no_norm {verts : List (Vec3 ℚ)} {coords : List (Vec2 ℚ)}
    {norms : List (Vec3 ℚ)} {t : List Char} {r : Vec3 ℚ × Vec2 ℚ × Option (Vec3 ℚ)}
    (h : parseFaceVertex verts coords norms t = .ok r)
    (hn : (((splitChar '/' t))[2]?).bind parseIsize = none) : r.2.2 = none := by
  simp only [parseFaceVertex] at h
  rw [hn] at h
  simp only [resolveNorm] at h
  split at h
  · simp at h
  · split at h
    · simp at h
    · split at h
      · simp at h
      · simp only [Except.ok.injEq] at h
        subst h
        rfl

/-- C8: in a parsed triangle, any vertex whose token supplied no
texture-coordinate index has the zero uv, and any vertex whose token
supplied no normal index carries the flat normal
normalize((p2 - p1) cross (p3 - p1)) of the three face positions. -/
theorem parse_triangle_defaults (sq : ℚ → ℚ) (verts : List (Vec3 ℚ)) (coords : List (Vec2 ℚ))
    (norms : List (Vec3 ℚ)) (t1 t2 t3 : List Char) (rest : List (List Char)) (tr : Triangle)
    (r1 r2 r3 : Vec3 ℚ × Vec2 ℚ × Option (Vec3 ℚ))
    (h1 : parseFaceVertex verts coords norms t1 = .ok r1)
    (h2 : parseFaceVertex verts coords norms t2 = .ok r2)
    (h3 : parseFaceVertex verts coords norms t3 = .ok r3)
    (hp : parse_triangle sq verts coords norms (t1 :: t2 :: t3 :: rest) = .ok (some tr)) :
    ((((splitChar '/' t1))[1]?).bind parseIsize = none → tr.v1.uv = ⟨0, 0⟩) ∧
    ((((splitChar '/' t1))[2]?).bind parseIsize = none →
      tr.v1.normal = triangle_normal sq r1.1 r2.1 r3.1) ∧
    ((((splitChar '/' t2))[1]?).bind parseIsize = none → tr.v2.uv = ⟨0, 0⟩) ∧
    ((((splitChar '/' t2))[2]?).bind parseIsize = none →
      tr.v2.normal = triangle_normal sq r1.1 r2.1 r3.1) ∧
    ((((splitChar '/' t3))[1]?).bind parseIsize = none → tr.v3.uv = ⟨0, 0⟩) ∧
    ((((splitChar '/' t3))[2]?).bind parseIsize = none →
      tr.v3.normal = triangle_normal sq r1.1 r2.1 r3.1) := by
  simp only [parse_triangle, h1, h2, h3, Except.ok.injEq, Option.some.injEq] at hp
  subst hp
  refine ⟨fun hn => ?_, fun hn => ?_, fun hn => ?_, fun hn => ?_, fun hn => ?_, fun hn => ?_⟩
  · exact parseFaceVertex_no_uv h1 hn
  · have hno := parseFaceVertex_no_norm h1 hn
    simp [make_vertex, hno]
  · exact parseFaceVertex_no_uv h2 hn
  · have hno := parseFaceVertex_no_norm h2 hn
    simp [make_vertex, hno]
  · exact parseFaceVertex_no_uv h3 hn
  · have hno := parseFaceVertex_no_norm h3 hn
    simp [make_vertex, hno]

/-- Witness vertex list for C8. -/
def verts8 : List (Vec3 ℚ) := [⟨0, 0, 0⟩, ⟨1, 0, 0⟩, ⟨0, 1, 0⟩]

/-- Witness triangle for C8: face 1 2 3 over verts8, flat normal
(0, 0, 1). -/
def tri8 : Triangle :=
  ⟨⟨⟨0, 0, 0⟩, ⟨0, 0⟩, ⟨0, 0, 1⟩⟩,
   ⟨⟨1, 0, 0⟩, ⟨0, 0⟩, ⟨0, 0, 1⟩⟩,
   ⟨⟨0, 1, 0⟩, ⟨0, 0⟩, ⟨0, 0, 1⟩⟩⟩

unseal Rat.add Rat.mul Rat.sub Rat.inv in
/-- Witness for C8: the face 1 2 3 with bare position indices gets zero
uv and the flat normal on its first vertex. -/
theorem parse_triangle_defaults_witness :
    parse_triangle (fun q => q) verts8 [] [] [("1").data, ("2").data, ("3").data] =
      .ok (some tri8) ∧
    (tri8.v1.uv = ⟨0, 0⟩ ∧
     tri8.v1.normal =
       triangle_normal (fun q => q) ⟨0, 0, 0⟩ ⟨1, 0, 0⟩ ⟨0, 1, 0⟩) :=
  ⟨by decide,
    (parse_triangle_defaults (fun q => q) verts8 [] [] ("1").data ("2").data ("3").data []
      tri8 (⟨0, 0, 0⟩, ⟨0, 0⟩, none) (⟨1, 0, 0⟩, ⟨0, 0⟩, none) (⟨0, 1, 0⟩, ⟨0, 0⟩, none)
      (by decide) (by decide) (by decide) (by decide)).1 (by decide),
    (parse_triangle_defaults (fun q => q) verts8 [] [] ("1").data ("2").data ("3").data []
      tri8 (⟨0, 0, 0⟩, ⟨0, 0⟩, none) (⟨1, 0, 0⟩, ⟨0, 0⟩, none) (⟨0, 1, 0⟩, ⟨0, 0⟩, none)
      (by decide) (by decide) (by decide) (by decide)).2.1 (by decide)⟩

end PrayerPi
